import Mathlib

/-
  Verification development for the Rest-Shop backend
  (restshop_project/restshop/views.py).

  The relational store is modelled as lists of records; Django queryset
  operations become list operations (filter through a to-many join is an
  existential test followed by deduplication, mirroring `.distinct()`).
  `Model.objects.get` is fallible (Django raises DoesNotExist), so the
  operations that use it return explicit result types.
-/

set_option autoImplicit false

namespace Restshop

/-- A catalog tag (model `Tag`): products carry a many-to-many `tag_set`;
    here a product stores the names of its tags directly. -/
structure Tag where
  id : Nat
  name : String
  deriving DecidableEq, Repr

/-- A `PropertyValue` row: one allowed value of a `Property`, referenced by
    its parent property via `property_id`. -/
structure PropertyValue where
  id : Nat
  property_id : Nat
  deriving DecidableEq, Repr

/-- A `Product` row: title, owning seller (by user id) and the names of its
    associated tags (`tag_set`). -/
structure Product where
  id : Nat
  title : String
  seller : Nat
  tag_set : List String
  deriving DecidableEq, Repr

/-- A `Unit` (SKU) row: price, stock counter, owning product and the set of
    `PropertyValue` ids associated with it (`value_set`). -/
structure Unit where
  id : Nat
  sku : String
  price : Nat
  num_in_stock : Nat
  product_id : Nat
  value_set : List Nat
  deriving DecidableEq, Repr

/-- An `Order` row as created by checkout: owning user and the buyer info
    copied from the payload. -/
structure Order where
  id : Nat
  user : Nat
  name : String
  address : String
  phone : String
  deriving DecidableEq, Repr

/-- An `OrderUnit` row: links an order to a unit with a quantity. -/
structure OrderUnit where
  order_id : Nat
  unit_id : Nat
  quantity : Nat
  deriving DecidableEq, Repr

/-- The relational store. `next_order_id` models the autoincrement pk used
    when `Order.objects.create` inserts a row. -/
structure DB where
  products : List Product
  units : List Unit
  property_values : List PropertyValue
  orders : List Order
  order_units : List OrderUnit
  next_order_id : Nat
  deriving DecidableEq, Repr

/-- The optional query parameters read by `ProductListView.get_queryset`. -/
structure QueryParams where
  q : Option String
  tags : Option String
  properties : Option String
  in_stock : Option String
  price_min : Option String
  price_max : Option String
  deriving DecidableEq, Repr

/-- Parameters with every filter absent. -/
def noParams : QueryParams :=
  { q := none, tags := none, properties := none,
    in_stock := none, price_min := none, price_max := none }

/-- Lower-case image of a string, character by character: the model of the
    case folding behind the case-insensitive lookups. -/
def strLower (s : String) : String :=
  String.mk (s.data.map Char.toLower)

/-- Whether `needle` occurs contiguously inside the second list. -/
def containsSub (needle : List Char) : List Char → Bool
  | [] => needle.isEmpty
  | c :: cs => needle.isPrefixOf (c :: cs) || containsSub needle cs

/-- Case-insensitive substring test: the model of Django `__icontains`. -/
def icontains (s sub : String) : Bool :=
  containsSub (strLower sub).data (strLower s).data

/-- Case-insensitive equality of strings: the model of Django `__iexact`. -/
def iexact (a b : String) : Bool :=
  strLower a == strLower b

/-- The model of `.distinct()`: deduplicate the product rows produced by a
    join through a to-many relation. -/
def distinct (l : List Product) : List Product :=
  l.dedup

/-- Splitting a character list at commas, accumulating the current piece in
    reverse. -/
def splitCommaAux : List Char → List Char → List String
  | [], acc => [String.mk acc.reverse]
  | c :: cs, acc =>
    if c = ',' then String.mk acc.reverse :: splitCommaAux cs []
    else splitCommaAux cs (c :: acc)

/-- Python `s.split(',')` as used on the `tags` and `properties` parameters. -/
def pySplitComma (s : String) : List String :=
  splitCommaAux s.data []

/-- The first characters of the Unicode decimal-digit blocks (category Nd,
    Numeric_Type=Decimal): every decimal digit lies in a run of ten
    characters zero to nine starting at one of these code points.
    Generated from CPython's unicodedata. -/
def decimalBlockStarts : List Nat :=
  [0x30, 0x660, 0x6f0, 0x7c0, 0x966, 0x9e6, 0xa66, 0xae6, 0xb66, 0xbe6,
   0xc66, 0xce6, 0xd66, 0xde6, 0xe50, 0xed0, 0xf20, 0x1040, 0x1090, 0x17e0,
   0x1810, 0x1946, 0x19d0, 0x1a80, 0x1a90, 0x1b50, 0x1bb0, 0x1c40, 0x1c50,
   0xa620, 0xa8d0, 0xa900, 0xa9d0, 0xa9f0, 0xaa50, 0xabf0, 0xff10, 0x104a0,
   0x10d30, 0x11066, 0x110f0, 0x11136, 0x111d0, 0x112f0, 0x11450, 0x114d0,
   0x11650, 0x116c0, 0x11730, 0x118e0, 0x11950, 0x11c50, 0x11d50, 0x11da0,
   0x16a60, 0x16ac0, 0x16b50, 0x1d7ce, 0x1d7d8, 0x1d7e2, 0x1d7ec, 0x1d7f6,
   0x1e140, 0x1e2f0, 0x1e950, 0x1fbf0]

/-- The decimal value of a character with Unicode Numeric_Type=Decimal —
    the digits `int()` accepts — and `none` for every other character. -/
def pyDecimalVal? (c : Char) : Option Nat :=
  (decimalBlockStarts.find? (fun b => b ≤ c.toNat && c.toNat ≤ b + 9)).map
    (fun b => c.toNat - b)

/-- The characters with Unicode Numeric_Type=Digit but no decimal value
    (superscripts, subscripts, circled digits, ...): `str.isdigit` accepts
    them but `int()` raises on them. Generated from CPython's unicodedata. -/
def digitOnlyRanges : List (Nat × Nat) :=
  [(0xb2, 0xb3), (0xb9, 0xb9), (0x1369, 0x1371), (0x19da, 0x19da),
   (0x2070, 0x2070), (0x2074, 0x2079), (0x2080, 0x2089), (0x2460, 0x2468),
   (0x2474, 0x247c), (0x2488, 0x2490), (0x24ea, 0x24ea), (0x24f5, 0x24fd),
   (0x24ff, 0x24ff), (0x2776, 0x277e), (0x2780, 0x2788), (0x278a, 0x2792),
   (0x10a40, 0x10a43), (0x10e60, 0x10e68), (0x11052, 0x1105a),
   (0x1f100, 0x1f10a)]

/-- Python's character digit test: Numeric_Type=Decimal or Digit. -/
def pyIsDigitChar (c : Char) : Bool :=
  (pyDecimalVal? c).isSome ||
    digitOnlyRanges.any (fun r => r.1 ≤ c.toNat && c.toNat ≤ r.2)

/-- Python `str.isdigit`: nonempty and every character a digit, decimal or
    not (so the superscript two passes even though `int()` rejects it). -/
def pyIsdigit (s : String) : Bool :=
  !s.data.isEmpty && s.data.all pyIsDigitChar

/-- The numeral a character list denotes when every character is a decimal
    digit, most significant first; `none` as soon as one is not. -/
def decDigitsVal? : List Char → Nat → Option Nat
  | [], acc => some acc
  | c :: cs, acc =>
    match pyDecimalVal? c with
    | some d => decDigitsVal? cs (acc * 10 + d)
    | none => none

/-- Python `int(s)` on the guarded strings: succeeds exactly on nonempty
    all-decimal strings (fullwidth digits included), raises ValueError
    otherwise — in particular on isdigit-true strings like superscripts. -/
def pyInt (s : String) : Except String Nat :=
  if s.data.isEmpty then Except.error "invalid literal for int with base 10"
  else
    match decDigitsVal? s.data 0 with
    | some n => Except.ok n
    | none => Except.error "invalid literal for int with base 10"

/-- The value-id a criterion string selects in the store's `id__in` scan: a
    decimal numeral selects that id, anything else selects nothing. -/
def parseId (s : String) : Option Nat :=
  match pyInt s with
  | Except.ok n => some n
  | Except.error _ => none

/-- One step of the tag loop:
    `queryset = queryset.filter(tag_set__name__iexact=tag).distinct()`. -/
def filterTag (qs : List Product) (tag : String) : List Product :=
  distinct (qs.filter (fun p => p.tag_set.any (fun n => iexact n tag)))

/-- The whole tag loop over the comma-separated tag names. -/
def filterTags (qs : List Product) (tags : List String) : List Product :=
  tags.foldl filterTag qs

/-- `PropertyValue.objects.filter(id__in=criteria)`: the store keeps the
    rows whose id is one of the numerals among the criteria strings. -/
def selectedValues (vals : List PropertyValue) (criteria : List String) : List PropertyValue :=
  vals.filter (fun v => (criteria.filterMap parseId).contains v.id)

/-- The keys of the `defaultdict(list)` grouping, in insertion
    (first-occurrence) order. -/
def groupKeys (values : List PropertyValue) : List Nat :=
  values.foldl (fun acc v => if acc.contains v.property_id then acc else acc ++ [v.property_id]) []

/-- The list stored under one key of the grouping: the ids of the selected
    values belonging to that property, in iteration order. -/
def groupValues (values : List PropertyValue) (pid : Nat) : List Nat :=
  (values.filter (fun v => v.property_id == pid)).map (fun v => v.id)

/-- One step of the property loop:
    `queryset = queryset.filter(unit__value_set__in=values).distinct()` —
    keep the products having some unit whose value set meets `vids`. -/
def filterPropertyGroup (units : List Unit) (qs : List Product) (vids : List Nat) : List Product :=
  distinct (qs.filter (fun p =>
    units.any (fun u => u.product_id == p.id && u.value_set.any (fun v => vids.contains v))))

/-- The whole properties branch of `get_queryset`: select the existing
    values among the criteria, group them by parent property, and filter
    once per group. -/
def filterProperties (db : DB) (qs : List Product) (criteria : List String) : List Product :=
  let values := selectedValues db.property_values criteria
  (groupKeys values).foldl
    (fun acc pid => filterPropertyGroup db.units acc (groupValues values pid)) qs

/-- The `q` stage: `queryset.filter(title__icontains=q)` when `q` is given;
    the argument is the value read from `query_params`. -/
def stage_q (q : Option String) (qs : List Product) : List Product :=
  match q with
  | some q => qs.filter (fun p => icontains p.title q)
  | none => qs

/-- The tags stage: Python truthiness skips `None` and the empty string. -/
def stage_tags (tags : Option String) (qs : List Product) : List Product :=
  match tags with
  | some t => if t = "" then qs else filterTags qs (pySplitComma t)
  | none => qs

/-- The properties stage: Python truthiness skips `None` and the empty string. -/
def stage_properties (db : DB) (criteria : Option String) (qs : List Product) : List Product :=
  match criteria with
  | some c => if c = "" then qs else filterProperties db qs (pySplitComma c)
  | none => qs

/-- The stock stage: applied exactly when the parameter is the string 1. -/
def stage_in_stock (db : DB) (in_stock : Option String) (qs : List Product) : List Product :=
  if in_stock == some "1" then
    distinct (qs.filter (fun p =>
      db.units.any (fun u => u.product_id == p.id && u.num_in_stock > 0)))
  else qs

/-- The `price_min` stage: guarded by `isdigit`, then `int(price_min)` and
    `filter(unit__price__gte=...)`. -/
def stage_price_min (db : DB) (price_min : Option String) (qs : List Product) : Except String (List Product) :=
  match price_min with
  | some s =>
    if pyIsdigit s then
      match pyInt s with
      | Except.ok n =>
        Except.ok (distinct (qs.filter (fun p =>
          db.units.any (fun u => u.product_id == p.id && n ≤ u.price))))
      | Except.error e => Except.error e
    else Except.ok qs
  | none => Except.ok qs

/-- The `price_max` stage: guarded by `isdigit`, then `int(price_max)` and
    `filter(unit__price__lte=...)`. -/
def stage_price_max (db : DB) (price_max : Option String) (qs : List Product) : Except String (List Product) :=
  match price_max with
  | some s =>
    if pyIsdigit s then
      match pyInt s with
      | Except.ok n =>
        Except.ok (distinct (qs.filter (fun p =>
          db.units.any (fun u => u.product_id == p.id && u.price ≤ n))))
      | Except.error e => Except.error e
    else Except.ok qs
  | none => Except.ok qs

/-- `ProductListView.get_queryset`: the six optional filters applied in
    source order, starting from `Product.objects.all()`. -/
def get_queryset (db : DB) (params : QueryParams) : Except String (List Product) :=
  match stage_price_min db params.price_min
      (stage_in_stock db params.in_stock
        (stage_properties db params.properties
          (stage_tags params.tags
            (stage_q params.q db.products)))) with
  | Except.error e => Except.error e
  | Except.ok qs => stage_price_max db params.price_max qs

/-- One line of the checkout payload: a sku and a quantity. -/
structure CartLine where
  sku : String
  quantity : Nat
  deriving DecidableEq, Repr

/-- The checkout payload `{name, address, phone, units}` after structural
    parsing. -/
structure CheckoutPayload where
  name : String
  address : String
  phone : String
  units : List CartLine
  deriving DecidableEq, Repr

/-- Modelled from the spec: the serializer module is not part of the given
    source; the validation collaborator accepts a payload exactly when it
    has the structural shape with every quantity a positive integer.  The
    shape is enforced by the types, so validity is the positivity check. -/
def serializer_is_valid (p : CheckoutPayload) : Bool :=
  p.units.all (fun l => l.quantity > 0)

/-- Modelled from the spec: the field-level error messages surfaced by the
    validation collaborator on failure (`serializer.error_messages`). -/
def serializer_error_messages : List String :=
  ["invalid checkout payload"]

/-- The local state of one `OrderViewSet.create` call: the store plus the
    two parallel lists `sellers` and `orders`. -/
structure CheckoutState where
  db : DB
  sellers : List Nat
  orders : List Order
  deriving DecidableEq, Repr

/-- `sellers.index(seller)` followed by `orders[order_index]` on the two
    parallel lists, as one recursion. -/
def lookupOrder : List Nat → List Order → Nat → Option Order
  | [], _, _ => none
  | _ :: _, [], _ => none
  | s :: ss, o :: os, seller => if s = seller then some o else lookupOrder ss os seller

/-- `get_order_by_seller`: reuse the seller's order when the seller was
    already seen, otherwise insert a new `Order` row and append the seller
    and the order to the parallel lists. -/
def get_order_by_seller (user : Nat) (name address phone : String)
    (st : CheckoutState) (seller : Nat) : Order × CheckoutState :=
  match lookupOrder st.sellers st.orders seller with
  | some o => (o, st)
  | none =>
    let o : Order :=
      { id := st.db.next_order_id, user := user,
        name := name, address := address, phone := phone }
    let db1 := { st.db with orders := st.db.orders ++ [o], next_order_id := st.db.next_order_id + 1 }
    (o, { db := db1, sellers := st.sellers ++ [seller], orders := st.orders ++ [o] })

/-- `Unit.objects.get(sku=...)`: the first unit row with that sku, if any. -/
def unitGet (db : DB) (sku : String) : Option Unit :=
  db.units.find? (fun u => u.sku == sku)

/-- `unit.product`: the product row a unit belongs to. -/
def productGet (db : DB) (pid : Nat) : Option Product :=
  db.products.find? (fun p => p.id == pid)

/-- `unit.save()`: write the unit row back by primary key. -/
def unitSave (db : DB) (u : Unit) : DB :=
  { db with units := db.units.map (fun v => if v.id == u.id then u else v) }

/-- The result of processing cart lines: normal completion, or an uncaught
    exception (e.g. DoesNotExist on an unknown sku) carrying the state at
    the moment of the raise — earlier per-line writes are already
    committed, matching the absence of a wrapping transaction. -/
inductive ProcessResult where
  | ok (st : CheckoutState)
  | exc (msg : String) (st : CheckoutState)
  deriving DecidableEq, Repr

/-- One iteration of the `for unit_order in data['units']` loop: resolve
    the unit by sku, find its seller, and when stock suffices create the
    `OrderUnit` (resolving the seller's order first, as the evaluation of
    the `order=` argument) and decrement-and-save the stock.  Insufficient
    stock leaves the state untouched. -/
def process_line (user : Nat) (name address phone : String)
    (st : CheckoutState) (line : CartLine) : ProcessResult :=
  match unitGet st.db line.sku with
  | none => ProcessResult.exc "Unit matching query does not exist" st
  | some u =>
    match productGet st.db u.product_id with
    | none => ProcessResult.exc "Product matching query does not exist" st
    | some prod =>
      if line.quantity ≤ u.num_in_stock then
        let res := get_order_by_seller user name address phone st prod.seller
        let ou : OrderUnit :=
          { order_id := res.1.id, unit_id := u.id, quantity := line.quantity }
        let db2 := { res.2.db with order_units := res.2.db.order_units ++ [ou] }
        let db3 := unitSave db2 { u with num_in_stock := u.num_in_stock - line.quantity }
        ProcessResult.ok { res.2 with db := db3 }
      else
        ProcessResult.ok st

/-- The whole loop over the cart lines, in input order. -/
def process_units (user : Nat) (name address phone : String) :
    CheckoutState → List CartLine → ProcessResult
  | st, [] => ProcessResult.ok st
  | st, line :: rest =>
    match process_line user name address phone st line with
    | ProcessResult.ok st1 => process_units user name address phone st1 rest
    | ProcessResult.exc e st1 => ProcessResult.exc e st1

/-- A checkout call's outcome: a 400 with field errors, a 201 success, or
    an uncaught exception; each carries the resulting store. -/
inductive CreateResult where
  | badRequest (errors : List String) (db : DB)
  | created (db : DB)
  | exception (msg : String) (db : DB)
  deriving DecidableEq, Repr

/-- `OrderViewSet.create`: validate the payload, then process the lines
    with empty parallel lists; success returns 201 no matter how many
    lines were skipped. -/
def OrderViewSet_create (db : DB) (user : Nat) (payload : CheckoutPayload) : CreateResult :=
  if serializer_is_valid payload then
    match process_units user payload.name payload.address payload.phone
        { db := db, sellers := [], orders := [] } payload.units with
    | ProcessResult.ok st => CreateResult.created st.db
    | ProcessResult.exc e st => CreateResult.exception e st.db
  else
    CreateResult.badRequest serializer_error_messages db

/-- `OrderViewSet.list`: the orders belonging to the requesting user. -/
def OrderViewSet_list (db : DB) (user : Nat) : List Order :=
  db.orders.filter (fun o => o.user == user)

/-- The outcome of retrieving one order: the serialized order, a 401 with
    no order data, or DoesNotExist for an unknown pk. -/
inductive RetrieveResult where
  | ok (order : Order)
  | unauthorized
  | notFound
  deriving DecidableEq, Repr

/-- `OrderViewSet.retrieve`: fetch by pk, then compare the requesting
    user's id with the order owner's id. -/
def OrderViewSet_retrieve (db : DB) (user : Nat) (pk : Nat) : RetrieveResult :=
  match db.orders.find? (fun o => o.id == pk) with
  | none => RetrieveResult.notFound
  | some order =>
    if user ≠ order.user then RetrieveResult.unauthorized
    else RetrieveResult.ok order

/-- A unit with its stock counter blanked: the per-call writes change only
    `num_in_stock`, so this image of the unit list is invariant. -/
def eraseStock (u : Unit) : Unit :=
  { u with num_in_stock := 0 }

/-- The seller whose product a unit (by id) belongs to. -/
def sellerOfUnit (db : DB) (uid : Nat) : Option Nat :=
  match db.units.find? (fun u => u.id == uid) with
  | none => none
  | some u => (productGet db u.product_id).map (fun p => p.seller)

/-- The per-call invariant a checkout run maintains over the store `db0` it
    started from: stock is the only changed unit column, products are
    untouched, the parallel lists are aligned and duplicate-free, new
    orders are exactly the parallel-list orders, and every new order-unit
    row points at the order the parallel lists assign to its unit's
    product's seller, while every new order has an order-unit row. -/
structure Inv (db0 : DB) (st : CheckoutState) : Prop where
  shape : st.db.units.map eraseStock = db0.units.map eraseStock
  prods : st.db.products = db0.products
  nodup : st.sellers.Nodup
  len : st.sellers.length = st.orders.length
  orders_eq : st.db.orders = db0.orders ++ st.orders
  ou_new : ∃ new, st.db.order_units = db0.order_units ++ new ∧
    (∀ x ∈ new, ∃ spid, sellerOfUnit db0 x.unit_id = some spid ∧
      ∃ o, lookupOrder st.sellers st.orders spid = some o ∧ x.order_id = o.id) ∧
    (∀ o ∈ st.orders, ∃ x ∈ new, x.order_id = o.id)

/-- The orders in the store an outcome carries. -/
def resultOrders : CreateResult → List Order
  | CreateResult.badRequest _ db => db.orders
  | CreateResult.created db => db.orders
  | CreateResult.exception _ db => db.orders

/-- The order-unit rows in the store an outcome carries. -/
def resultOrderUnits : CreateResult → List OrderUnit
  | CreateResult.badRequest _ db => db.order_units
  | CreateResult.created db => db.order_units
  | CreateResult.exception _ db => db.order_units

/-- Whether an outcome is the 201 success. -/
def isCreated : CreateResult → Bool
  | CreateResult.created _ => true
  | _ => false

/-- A catalog for the seller-splitting scenario: three units whose products
    belong to sellers 10, 20 and 10, in that order, all amply stocked. -/
def splitDB : DB :=
  { products := [
      { id := 1, title := "P1", seller := 10, tag_set := [] },
      { id := 2, title := "P2", seller := 20, tag_set := [] },
      { id := 3, title := "P3", seller := 10, tag_set := [] }],
    units := [
      { id := 1, sku := "A", price := 10, num_in_stock := 5, product_id := 1, value_set := [] },
      { id := 2, sku := "B", price := 20, num_in_stock := 5, product_id := 2, value_set := [] },
      { id := 3, sku := "C", price := 30, num_in_stock := 5, product_id := 3, value_set := [] }],
    property_values := [],
    orders := [], order_units := [], next_order_id := 100 }

/-- A three-line cart touching sellers 10, 20, 10 in that order. -/
def splitPayload : CheckoutPayload :=
  { name := "n", address := "a", phone := "p",
    units := [
      { sku := "A", quantity := 1 },
      { sku := "B", quantity := 2 },
      { sku := "C", quantity := 3 }] }

/-- A catalog with a single unit that is out of stock. -/
def emptyStockDB : DB :=
  { products := [{ id := 1, title := "P1", seller := 10, tag_set := [] }],
    units := [{ id := 1, sku := "A", price := 10, num_in_stock := 0, product_id := 1, value_set := [] }],
    property_values := [], orders := [], order_units := [], next_order_id := 100 }

/-- A structurally valid one-line cart asking for more than the stock. -/
def overAskPayload : CheckoutPayload :=
  { name := "n", address := "a", phone := "p", units := [{ sku := "A", quantity := 5 }] }

/-- A structurally valid one-line cart whose sku matches no unit row. -/
def unknownSkuPayload : CheckoutPayload :=
  { name := "n", address := "a", phone := "p", units := [{ sku := "Z", quantity := 1 }] }

/-- The clean per-call state a checkout starts from on `splitDB`. -/
def st0split : CheckoutState :=
  { db := splitDB, sellers := [], orders := [] }

/-- The first cart line of the scenario. -/
def lineA : CartLine :=
  { sku := "A", quantity := 1 }

/-- The unit row the sku A resolves to in `splitDB`. -/
def unitA : Unit :=
  { id := 1, sku := "A", price := 10, num_in_stock := 5, product_id := 1, value_set := [] }

/-- The product row `unitA` belongs to. -/
def productA : Product :=
  { id := 1, title := "P1", seller := 10, tag_set := [] }

/-- The state the three-line seller-splitting scenario ends in: two orders
    (sellers 10 and 20), three order-unit rows, and decremented stock. -/
def splitFinalState : CheckoutState :=
  { db := { products := splitDB.products,
            units := [
              { id := 1, sku := "A", price := 10, num_in_stock := 4, product_id := 1, value_set := [] },
              { id := 2, sku := "B", price := 20, num_in_stock := 3, product_id := 2, value_set := [] },
              { id := 3, sku := "C", price := 30, num_in_stock := 2, product_id := 3, value_set := [] }],
            property_values := [],
            orders := [
              { id := 100, user := 7, name := "n", address := "a", phone := "p" },
              { id := 101, user := 7, name := "n", address := "a", phone := "p" }],
            order_units := [
              { order_id := 100, unit_id := 1, quantity := 1 },
              { order_id := 101, unit_id := 2, quantity := 2 },
              { order_id := 100, unit_id := 3, quantity := 3 }],
            next_order_id := 102 },
    sellers := [10, 20],
    orders := [
      { id := 100, user := 7, name := "n", address := "a", phone := "p" },
      { id := 101, user := 7, name := "n", address := "a", phone := "p" }] }

/-- A store holding two orders owned by different buyers. -/
def ordersDB : DB :=
  { products := [], units := [], property_values := [],
    orders := [
      { id := 1, user := 3, name := "n", address := "a", phone := "p" },
      { id := 2, user := 4, name := "m", address := "b", phone := "q" }],
    order_units := [], next_order_id := 3 }

/-- A product carrying the tags red and sale. -/
def taggedProduct : Product :=
  { id := 1, title := "P1", seller := 10, tag_set := ["red", "sale"] }

/-- A catalog with tags, property values and varied prices/stock, used to
    instantiate the filter theorems on concrete data. -/
def filterDB : DB :=
  { products := [
      taggedProduct,
      { id := 2, title := "P2", seller := 20, tag_set := ["red"] },
      { id := 3, title := "P3", seller := 10, tag_set := [] }],
    units := [
      { id := 1, sku := "A", price := 10, num_in_stock := 0, product_id := 1, value_set := [101, 102] },
      { id := 2, sku := "B", price := 20, num_in_stock := 3, product_id := 2, value_set := [101, 201] },
      { id := 3, sku := "C", price := 30, num_in_stock := 5, product_id := 3, value_set := [202] }],
    property_values := [
      { id := 101, property_id := 1 }, { id := 102, property_id := 1 },
      { id := 201, property_id := 2 }, { id := 202, property_id := 2 }],
    orders := [], order_units := [], next_order_id := 0 }

end Restshop

namespace Restshop

theorem mem_distinct {p : Product} {l : List Product} : p ∈ distinct l ↔ p ∈ l := by
  simp [distinct, List.mem_dedup]

theorem mem_filterTag {qs : List Product} {t : String} {p : Product} :
    p ∈ filterTag qs t ↔ p ∈ qs ∧ p.tag_set.any (fun n => iexact n t) = true := by
  simp [filterTag, distinct, List.mem_dedup, List.mem_filter]

theorem mem_filterTags {tags : List String} {qs : List Product} {p : Product} :
    p ∈ filterTags qs tags ↔ p ∈ qs ∧ ∀ t ∈ tags, p.tag_set.any (fun n => iexact n t) = true := by
  induction tags generalizing qs with
  | nil => simp [filterTags]
  | cons t ts ih =>
    rw [filterTags, List.foldl_cons]
    have heq : ts.foldl filterTag (filterTag qs t) = filterTags (filterTag qs t) ts := rfl
    rw [heq, ih, mem_filterTag]
    simp only [List.mem_cons]
    constructor
    · rintro ⟨⟨h1, h2⟩, h3⟩
      refine ⟨h1, ?_⟩
      rintro t' (rfl | ht')
      · exact h2
      · exact h3 t' ht'
    · rintro ⟨h1, h2⟩
      exact ⟨⟨h1, h2 t (Or.inl rfl)⟩, fun t' ht' => h2 t' (Or.inr ht')⟩

theorem mem_filterPropertyGroup {units : List Unit} {qs : List Product} {vids : List Nat} {p : Product} :
    p ∈ filterPropertyGroup units qs vids ↔
      p ∈ qs ∧ (units.any (fun u => u.product_id == p.id && u.value_set.any (fun v => vids.contains v))) = true := by
  simp [filterPropertyGroup, distinct, List.mem_dedup, List.mem_filter]

theorem mem_groupFold {units : List Unit} {keys : List Nat} {f : Nat → List Nat} {qs : List Product} {p : Product} :
    p ∈ keys.foldl (fun acc pid => filterPropertyGroup units acc (f pid)) qs ↔
      p ∈ qs ∧ ∀ k ∈ keys,
        (units.any (fun u => u.product_id == p.id && u.value_set.any (fun v => (f k).contains v))) = true := by
  induction keys generalizing qs with
  | nil => simp
  | cons k ks ih =>
    rw [List.foldl_cons, ih, mem_filterPropertyGroup]
    simp only [List.mem_cons]
    constructor
    · rintro ⟨⟨h1, h2⟩, h3⟩
      refine ⟨h1, ?_⟩
      rintro k' (rfl | hk')
      · exact h2
      · exact h3 k' hk'
    · rintro ⟨h1, h2⟩
      exact ⟨⟨h1, h2 k (Or.inl rfl)⟩, fun k' hk' => h2 k' (Or.inr hk')⟩

theorem mem_filterProperties {db : DB} {qs : List Product} {criteria : List String} {p : Product} :
    p ∈ filterProperties db qs criteria ↔
      p ∈ qs ∧ ∀ pid ∈ groupKeys (selectedValues db.property_values criteria),
        (db.units.any (fun u => u.product_id == p.id &&
          u.value_set.any (fun v => (groupValues (selectedValues db.property_values criteria) pid).contains v))) = true := by
  rw [filterProperties]
  exact mem_groupFold

theorem mem_stage_q {q : Option String} {qs : List Product} {p : Product} :
    p ∈ stage_q q qs ↔ p ∈ qs ∧ ∀ s, q = some s → icontains p.title s = true := by
  cases q <;> simp [stage_q, List.mem_filter]

theorem mem_stage_tags {tags : Option String} {qs : List Product} {p : Product} :
    p ∈ stage_tags tags qs ↔
      p ∈ qs ∧ ∀ s, tags = some s → s ≠ "" →
        ∀ t ∈ pySplitComma s, p.tag_set.any (fun n => iexact n t) = true := by
  cases tags with
  | none => simp [stage_tags]
  | some s =>
    by_cases hs : s = ""
    · subst hs; simp [stage_tags]
    · simp [stage_tags, hs, mem_filterTags]

theorem mem_stage_properties {db : DB} {criteria : Option String} {qs : List Product} {p : Product} :
    p ∈ stage_properties db criteria qs ↔
      p ∈ qs ∧ ∀ s, criteria = some s → s ≠ "" →
        ∀ pid ∈ groupKeys (selectedValues db.property_values (pySplitComma s)),
          (db.units.any (fun u => u.product_id == p.id &&
            u.value_set.any (fun v =>
              (groupValues (selectedValues db.property_values (pySplitComma s)) pid).contains v))) = true := by
  cases criteria with
  | none => simp [stage_properties]
  | some s =>
    by_cases hs : s = ""
    · subst hs; simp [stage_properties]
    · simp [stage_properties, hs, mem_filterProperties]

theorem mem_stage_in_stock {db : DB} {in_stock : Option String} {qs : List Product} {p : Product} :
    p ∈ stage_in_stock db in_stock qs ↔
      p ∈ qs ∧ (in_stock = some "1" →
        (db.units.any (fun u => u.product_id == p.id && u.num_in_stock > 0)) = true) := by
  by_cases h : in_stock = some "1"
  · subst h; simp [stage_in_stock, distinct, List.mem_dedup, List.mem_filter]
  · have hb : (in_stock == some "1") = false := by
      cases in_stock <;> simp_all
    simp [stage_in_stock, hb, h]

theorem decDigitsVal_all {cs : List Char} {acc n : Nat}
    (h : decDigitsVal? cs acc = some n) : ∀ c ∈ cs, (pyDecimalVal? c).isSome = true := by
  induction cs generalizing acc with
  | nil =>
    intro c hc
    cases hc
  | cons c cs ih =>
    intro c2 hc2
    rw [decDigitsVal?] at h
    cases hd : pyDecimalVal? c with
    | none =>
      rw [hd] at h
      cases h
    | some d =>
      rw [hd] at h
      rcases List.mem_cons.mp hc2 with rfl | hmem
      · rw [hd]
        rfl
      · exact ih h c2 hmem

theorem pyIsdigit_of_pyInt_ok {s : String} {n : Nat} (h : pyInt s = Except.ok n) :
    pyIsdigit s = true := by
  rw [pyInt] at h
  by_cases he : s.data.isEmpty = true
  · rw [if_pos he] at h
    cases h
  · rw [if_neg he] at h
    cases hd : decDigitsVal? s.data 0 with
    | none =>
      rw [hd] at h
      cases h
    | some m =>
      have hall := decDigitsVal_all hd
      rw [pyIsdigit, Bool.and_eq_true]
      refine ⟨by simpa using he, ?_⟩
      rw [List.all_eq_true]
      intro c hc
      rw [pyIsDigitChar, Bool.or_eq_true]
      exact Or.inl (hall c hc)

theorem stage_price_min_total_cond (db : DB) (pm : Option String) (qs : List Product)
    (hc : ∀ s, pm = some s → pyIsdigit s = true → ∃ n, pyInt s = Except.ok n) :
    ∃ l, stage_price_min db pm qs = Except.ok l := by
  cases pm with
  | none => exact ⟨qs, rfl⟩
  | some s =>
    by_cases hd : pyIsdigit s = true
    · obtain ⟨n, hn⟩ := hc s rfl hd
      rw [stage_price_min, if_pos hd, hn]
      exact ⟨_, rfl⟩
    · refine ⟨qs, ?_⟩
      rw [stage_price_min, if_neg hd]

theorem stage_price_max_total_cond (db : DB) (pm : Option String) (qs : List Product)
    (hc : ∀ s, pm = some s → pyIsdigit s = true → ∃ n, pyInt s = Except.ok n) :
    ∃ l, stage_price_max db pm qs = Except.ok l := by
  cases pm with
  | none => exact ⟨qs, rfl⟩
  | some s =>
    by_cases hd : pyIsdigit s = true
    · obtain ⟨n, hn⟩ := hc s rfl hd
      rw [stage_price_max, if_pos hd, hn]
      exact ⟨_, rfl⟩
    · refine ⟨qs, ?_⟩
      rw [stage_price_max, if_neg hd]

theorem get_queryset_total_cond (db : DB) (params : QueryParams)
    (hmin : ∀ s, params.price_min = some s → pyIsdigit s = true → ∃ n, pyInt s = Except.ok n)
    (hmax : ∀ s, params.price_max = some s → pyIsdigit s = true → ∃ n, pyInt s = Except.ok n) :
    ∃ l, get_queryset db params = Except.ok l := by
  obtain ⟨l1, h1⟩ := stage_price_min_total_cond db params.price_min
    (stage_in_stock db params.in_stock
      (stage_properties db params.properties
        (stage_tags params.tags (stage_q params.q db.products)))) hmin
  obtain ⟨l2, h2⟩ := stage_price_max_total_cond db params.price_max l1 hmax
  exact ⟨l2, by rw [get_queryset, h1]; exact h2⟩

theorem mem_stage_price_min {db : DB} {pm : Option String} {qs l : List Product} {p : Product}
    (h : stage_price_min db pm qs = Except.ok l) :
    p ∈ l ↔ p ∈ qs ∧ ∀ s n, pm = some s → pyInt s = Except.ok n →
      (db.units.any (fun u => u.product_id == p.id && decide (n ≤ u.price))) = true := by
  cases pm with
  | none =>
    simp only [stage_price_min] at h
    cases h
    simp
  | some s =>
    by_cases hd : pyIsdigit s = true
    · cases hi : pyInt s with
      | ok n =>
        simp only [stage_price_min, hd, if_true, hi] at h
        cases h
        rw [mem_distinct, List.mem_filter]
        constructor
        · rintro ⟨h1, h2⟩
          refine ⟨h1, ?_⟩
          rintro s' n' hs' hn'
          cases hs'
          rw [hi] at hn'
          cases hn'
          simpa using h2
        · rintro ⟨h1, h2⟩
          exact ⟨h1, by simpa using h2 s n rfl hi⟩
      | error e =>
        simp only [stage_price_min, hd, if_true, hi] at h
        cases h
    · simp only [stage_price_min, hd, if_false] at h
      cases h
      constructor
      · intro hp
        refine ⟨hp, ?_⟩
        rintro s' n' hs' hn'
        cases hs'
        exact absurd (pyIsdigit_of_pyInt_ok hn') hd
      · rintro ⟨h1, _⟩
        exact h1

theorem mem_stage_price_max {db : DB} {pm : Option String} {qs l : List Product} {p : Product}
    (h : stage_price_max db pm qs = Except.ok l) :
    p ∈ l ↔ p ∈ qs ∧ ∀ s n, pm = some s → pyInt s = Except.ok n →
      (db.units.any (fun u => u.product_id == p.id && decide (u.price ≤ n))) = true := by
  cases pm with
  | none =>
    simp only [stage_price_max] at h
    cases h
    simp
  | some s =>
    by_cases hd : pyIsdigit s = true
    · cases hi : pyInt s with
      | ok n =>
        simp only [stage_price_max, hd, if_true, hi] at h
        cases h
        rw [mem_distinct, List.mem_filter]
        constructor
        · rintro ⟨h1, h2⟩
          refine ⟨h1, ?_⟩
          rintro s' n' hs' hn'
          cases hs'
          rw [hi] at hn'
          cases hn'
          simpa using h2
        · rintro ⟨h1, h2⟩
          exact ⟨h1, by simpa using h2 s n rfl hi⟩
      | error e =>
        simp only [stage_price_max, hd, if_true, hi] at h
        cases h
    · simp only [stage_price_max, hd, if_false] at h
      cases h
      constructor
      · intro hp
        refine ⟨hp, ?_⟩
        rintro s' n' hs' hn'
        cases hs'
        exact absurd (pyIsdigit_of_pyInt_ok hn') hd
      · rintro ⟨h1, _⟩
        exact h1

theorem mem_get_queryset {db : DB} {params : QueryParams} {l : List Product} {p : Product}
    (h : get_queryset db params = Except.ok l) :
    p ∈ l ↔ p ∈ db.products
      ∧ (∀ s, params.q = some s → icontains p.title s = true)
      ∧ (∀ s, params.tags = some s → s ≠ "" →
          ∀ t ∈ pySplitComma s, p.tag_set.any (fun n => iexact n t) = true)
      ∧ (∀ s, params.properties = some s → s ≠ "" →
          ∀ pid ∈ groupKeys (selectedValues db.property_values (pySplitComma s)),
            (db.units.any (fun u => u.product_id == p.id &&
              u.value_set.any (fun v =>
                (groupValues (selectedValues db.property_values (pySplitComma s)) pid).contains v))) = true)
      ∧ (params.in_stock = some "1" →
          (db.units.any (fun u => u.product_id == p.id && u.num_in_stock > 0)) = true)
      ∧ (∀ s n, params.price_min = some s → pyInt s = Except.ok n →
          (db.units.any (fun u => u.product_id == p.id && decide (n ≤ u.price))) = true)
      ∧ (∀ s n, params.price_max = some s → pyInt s = Except.ok n →
          (db.units.any (fun u => u.product_id == p.id && decide (u.price ≤ n))) = true) := by
  rw [get_queryset] at h
  cases h5 : stage_price_min db params.price_min
      (stage_in_stock db params.in_stock
        (stage_properties db params.properties
          (stage_tags params.tags (stage_q params.q db.products)))) with
  | error e =>
    rw [h5] at h
    cases h
  | ok l5 =>
    rw [h5] at h
    rw [mem_stage_price_max h, mem_stage_price_min h5, mem_stage_in_stock,
      mem_stage_properties, mem_stage_tags, mem_stage_q]
    tauto

end Restshop

namespace Restshop

theorem stage_properties_skip {db : DB} {s : String}
    (hmiss : ∀ v ∈ db.property_values, v.id ∉ (pySplitComma s).filterMap parseId)
    (qs : List Product) : stage_properties db (some s) qs = qs := by
  by_cases hs : s = ""
  · subst hs; simp [stage_properties]
  · have hsel : selectedValues db.property_values (pySplitComma s) = [] := by
      rw [selectedValues, List.filter_eq_nil_iff]
      intro v hv
      simp only [List.contains, Bool.not_eq_true]
      rw [Bool.eq_false_iff]
      intro helem
      exact hmiss v hv (List.elem_iff.mp helem)
    simp [stage_properties, hs, filterProperties, hsel, groupKeys]

theorem unknownTag_empty {db : DB} {params : QueryParams} {s t : String} {l : List Product}
    (hp : params.tags = some s) (hs : s ≠ "") (ht : t ∈ pySplitComma s)
    (hun : ∀ p ∈ db.products, ∀ n ∈ p.tag_set, iexact n t = false)
    (hl : get_queryset db params = Except.ok l) : l = [] := by
  rw [List.eq_nil_iff_forall_not_mem]
  intro p hpl
  have hchar := (mem_get_queryset hl).mp hpl
  have htag := hchar.2.2.1 s hp hs t ht
  rw [List.any_eq_true] at htag
  obtain ⟨n, hn, hnt⟩ := htag
  have hf := hun p hchar.1 n hn
  rw [hf] at hnt
  exact Bool.false_ne_true hnt

/-- Counterexample to claim C4: at price_min superscript-two the isdigit
    guard passes — Python's str.isdigit accepts digit-property characters —
    but int() raises, so the filter builder's error branch is reachable. -/
theorem C4_counterexample :
    pyIsdigit "²" = true ∧
    get_queryset filterDB { noParams with price_min := some "²" } =
      Except.error "invalid literal for int with base 10" :=
  ⟨rfl, rfl⟩

/-- Claim C4 as amended: the filter builder evaluates without error on
    every input whose price parameters, when they pass the isdigit guard,
    are decimal numerals int() accepts; only an isdigit-true price value
    containing a non-decimal digit character reaches the error branch. -/
theorem C4_no_error_on_decimal_params :
    ∀ (db : DB) (params : QueryParams),
      (∀ s, params.price_min = some s → pyIsdigit s = true → ∃ n, pyInt s = Except.ok n) →
      (∀ s, params.price_max = some s → pyIsdigit s = true → ∃ n, pyInt s = Except.ok n) →
      ∃ l, get_queryset db params = Except.ok l :=
  get_queryset_total_cond

/-- Witness for C4 as amended: a digit-guarded price parameter evaluates
    without error. -/
theorem C4_witness :
    ∃ l, get_queryset filterDB { noParams with price_min := some "15" } = Except.ok l :=
  C4_no_error_on_decimal_params filterDB { noParams with price_min := some "15" }
    (fun s hs _ => by cases hs; exact ⟨15, rfl⟩)
    (fun s hs => by cases hs)

/-- Claim C10: well-formed value-ids matching no `PropertyValue` row impose
    no constraint on the result, while an unknown tag name empties it. -/
theorem C10_unknown_ids_dropped :
    (∀ (db : DB) (params : QueryParams) (s : String),
        params.properties = some s →
        (∀ v ∈ db.property_values, v.id ∉ (pySplitComma s).filterMap parseId) →
        get_queryset db params = get_queryset db { params with properties := none }) ∧
    (∀ (db : DB) (params : QueryParams) (s t : String),
        params.tags = some s → s ≠ "" → t ∈ pySplitComma s →
        (∀ p ∈ db.products, ∀ n ∈ p.tag_set, iexact n t = false) →
        ∀ l, get_queryset db params = Except.ok l → l = []) := by
  constructor
  · intro db params s hp hmiss
    rw [get_queryset, get_queryset]
    simp only [hp]
    simp only [stage_properties_skip hmiss]
    have hnone : ∀ qs, stage_properties db none qs = qs := fun _ => rfl
    simp only [hnone]
  · intro db params s t hp hs ht hun l hl
    exact unknownTag_empty hp hs ht hun hl

/-- Witness for C10 at concrete data: criteria 999 matches no value row of
    the catalog, so the listing is the same as with no properties filter. -/
theorem C10_witness :
    get_queryset filterDB { noParams with properties := some "999" } =
      get_queryset filterDB { noParams with properties := none } :=
  C10_unknown_ids_dropped.1 filterDB { noParams with properties := some "999" } "999"
    rfl (by decide)

end Restshop

namespace Restshop

theorem C5_properties_or_and :
    ∀ (db : DB) (s : String) (p : Product),
      ∃ l, get_queryset db { noParams with properties := some s } = Except.ok l ∧
        (p ∈ l ↔ p ∈ db.products ∧
          ∀ pid ∈ groupKeys (selectedValues db.property_values (pySplitComma s)),
            ∃ u ∈ db.units, u.product_id = p.id ∧
              ∃ v ∈ u.value_set, v ∈ groupValues (selectedValues db.property_values (pySplitComma s)) pid) := by
  intro db s p
  obtain ⟨l, hl⟩ := get_queryset_total_cond db { noParams with properties := some s }
    (fun s2 hs2 => by cases hs2) (fun s2 hs2 => by cases hs2)
  refine ⟨l, hl, ?_⟩
  rw [mem_get_queryset hl]
  simp only [noParams, Option.some.injEq, reduceCtorEq, false_implies, implies_true, true_and,
    and_true, forall_eq]
  by_cases hs : s = ""
  · subst hs
    have hpc : (pySplitComma "").filterMap parseId = ([] : List Nat) := rfl
    have hsel : selectedValues db.property_values (pySplitComma "") = [] := by
      simp only [selectedValues, hpc]
      simp [List.filter_eq_nil_iff, List.contains]
    simp [hsel, groupKeys]
  · simp only [forall_eq', ne_eq, hs, not_false_iff, true_implies, false_implies]
    simp only [List.any_eq_true, Bool.and_eq_true, beq_iff_eq, List.contains, List.elem_iff]


end Restshop

namespace Restshop

/-- Claim C6: with a tags parameter, a listed product carries every listed
    tag name up to case, and a tag name carried by no product empties the
    result. -/
theorem C6_tags_all_required :
    (∀ (db : DB) (params : QueryParams) (s : String) (l : List Product) (p : Product),
        params.tags = some s → s ≠ "" →
        get_queryset db params = Except.ok l → p ∈ l →
        ∀ t ∈ pySplitComma s, ∃ n ∈ p.tag_set, iexact n t = true) ∧
    (∀ (db : DB) (params : QueryParams) (s t : String),
        params.tags = some s → s ≠ "" → t ∈ pySplitComma s →
        (∀ p ∈ db.products, ∀ n ∈ p.tag_set, iexact n t = false) →
        ∀ l, get_queryset db params = Except.ok l → l = []) := by
  constructor
  · intro db params s l p hptags hs hql hpl t ht
    have hchar := (mem_get_queryset hql).mp hpl
    have htag := hchar.2.2.1 s hptags hs t ht
    rw [List.any_eq_true] at htag
    exact htag
  · intro db params s t hptags hs ht hun l hl
    exact unknownTag_empty hptags hs ht hun hl

/-- Witness for C6 at concrete data: the product listed under tags
    red,sale indeed carries a tag matching each of red and sale. -/
theorem C6_witness :
    ∀ t ∈ pySplitComma "red,sale", ∃ n ∈ taggedProduct.tag_set, iexact n t = true :=
  C6_tags_all_required.1 filterDB { noParams with tags := some "red,sale" } "red,sale"
    [taggedProduct] taggedProduct rfl (by decide) rfl (by decide)

/-- Counterexample to claim C7: non-numeric price parameters are not
    always treated as absent — the superscript two passes Python's isdigit
    guard and raises in int() instead of being ignored, while the
    fullwidth numeral one-two filters by twelve rather than being ignored. -/
theorem C7_counterexample :
    get_queryset filterDB { noParams with price_min := some "²" } =
        Except.error "invalid literal for int with base 10" ∧
    get_queryset filterDB { noParams with price_min := none } =
        Except.ok [taggedProduct,
          { id := 2, title := "P2", seller := 20, tag_set := ["red"] },
          { id := 3, title := "P3", seller := 10, tag_set := [] }] ∧
    pyInt "１２" = Except.ok 12 ∧
    get_queryset filterDB { noParams with price_min := some "１２" } =
        Except.ok [{ id := 2, title := "P2", seller := 20, tag_set := ["red"] },
          { id := 3, title := "P3", seller := 10, tag_set := [] }] :=
  ⟨rfl, rfl, rfl, rfl⟩

/-- Claim C7 as amended: the price filters are inclusive and filter by the
    decimal value int() parses (fullwidth numerals included), the stock
    filter applies exactly for the value 1, and a price value failing
    Python's isdigit test leaves the pipeline as if the parameter were
    absent — an isdigit-true value int() rejects instead raises. -/
theorem C7_price_stock_filters :
    (∀ (db : DB) (params : QueryParams) (s : String) (n : Nat) (l : List Product) (p : Product),
        params.price_min = some s → pyInt s = Except.ok n →
        get_queryset db params = Except.ok l → p ∈ l →
        ∃ u ∈ db.units, u.product_id = p.id ∧ n ≤ u.price) ∧
    (∀ (db : DB) (params : QueryParams) (s : String) (n : Nat) (l : List Product) (p : Product),
        params.price_max = some s → pyInt s = Except.ok n →
        get_queryset db params = Except.ok l → p ∈ l →
        ∃ u ∈ db.units, u.product_id = p.id ∧ u.price ≤ n) ∧
    (∀ (db : DB) (params : QueryParams) (l : List Product) (p : Product),
        params.in_stock = some "1" →
        get_queryset db params = Except.ok l → p ∈ l →
        ∃ u ∈ db.units, u.product_id = p.id ∧ 0 < u.num_in_stock) ∧
    (∀ (db : DB) (params : QueryParams) (s : String),
        params.price_min = some s → pyIsdigit s = false →
        get_queryset db params = get_queryset db { params with price_min := none }) ∧
    (∀ (db : DB) (params : QueryParams) (s : String),
        params.price_max = some s → pyIsdigit s = false →
        get_queryset db params = get_queryset db { params with price_max := none }) ∧
    (∀ (db : DB) (params : QueryParams),
        params.in_stock ≠ some "1" →
        get_queryset db params = get_queryset db { params with in_stock := none }) := by
  refine ⟨?_, ?_, ?_, ?_, ?_, ?_⟩
  · intro db params s n l p hpm hn hql hpl
    have hchar := (mem_get_queryset hql).mp hpl
    have hc := hchar.2.2.2.2.2.1 s n hpm hn
    rw [List.any_eq_true] at hc
    obtain ⟨u, hu, hcond⟩ := hc
    rw [Bool.and_eq_true, beq_iff_eq] at hcond
    exact ⟨u, hu, hcond.1, by simpa using hcond.2⟩
  · intro db params s n l p hpm hn hql hpl
    have hchar := (mem_get_queryset hql).mp hpl
    have hc := hchar.2.2.2.2.2.2 s n hpm hn
    rw [List.any_eq_true] at hc
    obtain ⟨u, hu, hcond⟩ := hc
    rw [Bool.and_eq_true, beq_iff_eq] at hcond
    exact ⟨u, hu, hcond.1, by simpa using hcond.2⟩
  · intro db params l p hpis hql hpl
    have hchar := (mem_get_queryset hql).mp hpl
    have hc := hchar.2.2.2.2.1 hpis
    rw [List.any_eq_true] at hc
    obtain ⟨u, hu, hcond⟩ := hc
    rw [Bool.and_eq_true, beq_iff_eq] at hcond
    exact ⟨u, hu, hcond.1, by simpa using hcond.2⟩
  · intro db params s hpm hnd
    rw [get_queryset, get_queryset]
    have h1 : ∀ qs, stage_price_min db (some s) qs = Except.ok qs := fun qs => by
      simp [stage_price_min, hnd]
    have h2 : ∀ qs, stage_price_min db none qs = Except.ok qs := fun _ => rfl
    simp only [hpm, h1, h2]
  · intro db params s hpm hnd
    rw [get_queryset, get_queryset]
    have h1 : ∀ qs, stage_price_max db (some s) qs = Except.ok qs := fun qs => by
      simp [stage_price_max, hnd]
    have h2 : ∀ qs, stage_price_max db none qs = Except.ok qs := fun _ => rfl
    simp only [hpm, h1, h2]
  · intro db params hne
    rw [get_queryset, get_queryset]
    have h1 : ∀ qs, stage_in_stock db params.in_stock qs = qs := fun qs => by
      have hb : (params.in_stock == some "1") = false := by
        rw [beq_eq_false_iff_ne]
        exact hne
      simp [stage_in_stock, hb]
    have h2 : ∀ qs, stage_in_stock db none qs = qs := fun _ => rfl
    simp only [h1, h2]

/-- Witness for C7 at concrete data: the product listed under price_min 15
    has a unit priced at least 15. -/
theorem C7_witness :
    ∃ u ∈ filterDB.units, u.product_id = Product.id { id := 2, title := "P2", seller := 20, tag_set := ["red"] } ∧ 15 ≤ u.price :=
  C7_price_stock_filters.1 filterDB { noParams with price_min := some "15" } "15" 15
    [{ id := 2, title := "P2", seller := 20, tag_set := ["red"] },
     { id := 3, title := "P3", seller := 10, tag_set := [] }]
    { id := 2, title := "P2", seller := 20, tag_set := ["red"] }
    rfl rfl rfl (by decide)

end Restshop

namespace Restshop

theorem gobs_found {user : Nat} {nm ad ph : String} {st : CheckoutState} {seller : Nat} {o : Order}
    (hl : lookupOrder st.sellers st.orders seller = some o) :
    get_order_by_seller user nm ad ph st seller = (o, st) := by
  rw [get_order_by_seller, hl]

theorem gobs_new {user : Nat} {nm ad ph : String} {st : CheckoutState} {seller : Nat}
    (hl : lookupOrder st.sellers st.orders seller = none) :
    get_order_by_seller user nm ad ph st seller =
      ({ id := st.db.next_order_id, user := user, name := nm, address := ad, phone := ph },
       { db := { st.db with
                  orders := st.db.orders ++
                    [{ id := st.db.next_order_id, user := user, name := nm, address := ad, phone := ph }],
                  next_order_id := st.db.next_order_id + 1 },
         sellers := st.sellers ++ [seller],
         orders := st.orders ++
           [{ id := st.db.next_order_id, user := user, name := nm, address := ad, phone := ph }] }) := by
  rw [get_order_by_seller, hl]

theorem process_line_eq_pass {user : Nat} {nm ad ph : String} {st : CheckoutState} {line : CartLine}
    {u : Unit} {prod : Product}
    (hu : unitGet st.db line.sku = some u)
    (hp : productGet st.db u.product_id = some prod)
    (hq : line.quantity ≤ u.num_in_stock) :
    process_line user nm ad ph st line =
      ProcessResult.ok
        { db := unitSave
            { (get_order_by_seller user nm ad ph st prod.seller).2.db with
              order_units := (get_order_by_seller user nm ad ph st prod.seller).2.db.order_units ++
                [{ order_id := (get_order_by_seller user nm ad ph st prod.seller).1.id,
                   unit_id := u.id, quantity := line.quantity }] }
            { u with num_in_stock := u.num_in_stock - line.quantity },
          sellers := (get_order_by_seller user nm ad ph st prod.seller).2.sellers,
          orders := (get_order_by_seller user nm ad ph st prod.seller).2.orders } := by
  rw [process_line, hu]
  dsimp only
  rw [hp]
  dsimp only
  rw [if_pos hq]

theorem process_line_eq_skip {user : Nat} {nm ad ph : String} {st : CheckoutState} {line : CartLine}
    {u : Unit} {prod : Product}
    (hu : unitGet st.db line.sku = some u)
    (hp : productGet st.db u.product_id = some prod)
    (hq : ¬ line.quantity ≤ u.num_in_stock) :
    process_line user nm ad ph st line = ProcessResult.ok st := by
  rw [process_line, hu]
  dsimp only
  rw [hp]
  dsimp only
  rw [if_neg hq]

end Restshop

namespace Restshop

theorem process_line_eq_exc_sku {user : Nat} {nm ad ph : String} {st : CheckoutState} {line : CartLine}
    (hu : unitGet st.db line.sku = none) :
    process_line user nm ad ph st line = ProcessResult.exc "Unit matching query does not exist" st := by
  rw [process_line, hu]

theorem lookupOrder_append {ss : List Nat} {os : List Order} {x : Nat} {r : Order} (s : Nat) (o : Order)
    (h : lookupOrder ss os x = some r) :
    lookupOrder (ss ++ [s]) (os ++ [o]) x = some r := by
  induction ss generalizing os with
  | nil => rw [lookupOrder] at h; cases h
  | cons a ss ih =>
    cases os with
    | nil => rw [lookupOrder] at h; cases h
    | cons b os =>
      rw [List.cons_append, List.cons_append, lookupOrder]
      rw [lookupOrder] at h
      by_cases hax : a = x
      · rw [if_pos hax] at h ⊢
        exact h
      · rw [if_neg hax] at h ⊢
        exact ih h

theorem lookupOrder_append_self {ss : List Nat} {os : List Order} {s : Nat} (o : Order)
    (hlen : ss.length = os.length) (h : lookupOrder ss os s = none) :
    lookupOrder (ss ++ [s]) (os ++ [o]) s = some o := by
  induction ss generalizing os with
  | nil =>
    cases os with
    | nil => simp [lookupOrder]
    | cons b os => simp at hlen
  | cons a ss ih =>
    cases os with
    | nil => simp at hlen
    | cons b os =>
      rw [List.cons_append, List.cons_append, lookupOrder]
      rw [lookupOrder] at h
      by_cases hax : a = s
      · rw [if_pos hax] at h
        cases h
      · rw [if_neg hax] at h
        rw [if_neg hax]
        exact ih (by simpa using hlen) h

theorem not_mem_of_lookupOrder_none {ss : List Nat} {os : List Order} {s : Nat}
    (hlen : ss.length = os.length) (h : lookupOrder ss os s = none) : s ∉ ss := by
  induction ss generalizing os with
  | nil => simp
  | cons a ss ih =>
    cases os with
    | nil => simp at hlen
    | cons b os =>
      rw [lookupOrder] at h
      by_cases hax : a = s
      · rw [if_pos hax] at h
        cases h
      · rw [if_neg hax] at h
        simp only [List.mem_cons]
        rintro (rfl | hmem)
        · exact hax rfl
        · exact ih (by simpa using hlen) h hmem

theorem find?_shape {l1 l2 : List Unit} (pred : Unit → Bool)
    (hpred : ∀ a b : Unit, eraseStock a = eraseStock b → pred a = pred b)
    (h : l1.map eraseStock = l2.map eraseStock) :
    (l1.find? pred).map eraseStock = (l2.find? pred).map eraseStock := by
  induction l1 generalizing l2 with
  | nil =>
    cases l2 with
    | nil => rfl
    | cons b l2 => simp at h
  | cons a l1 ih =>
    cases l2 with
    | nil => simp at h
    | cons b l2 =>
      simp only [List.map_cons, List.cons.injEq] at h
      obtain ⟨hab, htail⟩ := h
      rw [List.find?_cons, List.find?_cons]
      have hp : pred a = pred b := hpred a b hab
      cases hpa : pred a with
      | true =>
        have hpb : pred b = true := by rw [← hp]; exact hpa
        rw [hpa] at hp
        simp [hpa, hpb, hab]
      | false =>
        have hpb : pred b = false := by rw [← hp]; exact hpa
        simp only [hpa, hpb]
        exact ih htail

theorem unitGet_shape {dbA dbB : DB} (h : dbA.units.map eraseStock = dbB.units.map eraseStock) (sku : String) :
    (unitGet dbA sku).map eraseStock = (unitGet dbB sku).map eraseStock := by
  rw [unitGet, unitGet]
  refine find?_shape _ ?_ h
  intro a b hab
  have hsku : a.sku = b.sku := by
    have h2 := congrArg Unit.sku hab
    simpa [eraseStock] using h2
  rw [hsku]

theorem map_id_of_map_eraseStock {l1 l2 : List Unit} (h : l1.map eraseStock = l2.map eraseStock) :
    l1.map Unit.id = l2.map Unit.id := by
  have h2 := congrArg (List.map Unit.id) h
  simpa [List.map_map, Function.comp, eraseStock] using h2

theorem find?_id_of_mem {l1 l2 : List Unit} (h : l1.map eraseStock = l2.map eraseStock)
    (hnd : (l2.map Unit.id).Nodup) {u : Unit} (hu : u ∈ l1) :
    ∃ u2 ∈ l2, l2.find? (fun v => v.id == u.id) = some u2 ∧ u2.product_id = u.product_id := by
  induction l1 generalizing l2 with
  | nil => cases hu
  | cons a l1 ih =>
    cases l2 with
    | nil => simp at h
    | cons b l2 =>
      simp only [List.map_cons, List.cons.injEq] at h
      obtain ⟨hab, htail⟩ := h
      rcases List.mem_cons.mp hu with rfl | hmem
      · have hid : b.id = u.id := by
          have h2 := congrArg Unit.id hab
          simpa [eraseStock] using h2.symm
        have hpid : b.product_id = u.product_id := by
          have h2 := congrArg Unit.product_id hab
          simpa [eraseStock] using h2.symm
        refine ⟨b, List.mem_cons_self b l2, ?_, hpid⟩
        rw [List.find?_cons]
        have hbeq : (b.id == u.id) = true := beq_iff_eq.mpr hid
        simp [hbeq]
      · have hnd2 : (l2.map Unit.id).Nodup := (List.nodup_cons.mp hnd).2
        obtain ⟨u2, hu2mem, hfind, hpid⟩ := ih htail hnd2 hmem
        refine ⟨u2, List.mem_cons_of_mem b hu2mem, ?_, hpid⟩
        rw [List.find?_cons]
        have hbne : (b.id == u.id) = false := by
          rw [beq_eq_false_iff_ne]
          intro hbu
          have hmap : l1.map Unit.id = l2.map Unit.id := map_id_of_map_eraseStock htail
          have humem : u.id ∈ l2.map Unit.id := by
            rw [← hmap]
            exact List.mem_map_of_mem Unit.id hmem
          have hbnotin : b.id ∉ l2.map Unit.id := (List.nodup_cons.mp hnd).1
          exact hbnotin (hbu ▸ humem)
        simp only [hbne]
        exact hfind

end Restshop

namespace Restshop

theorem Inv_init (db0 : DB) : Inv db0 { db := db0, sellers := [], orders := [] } := by
  refine ⟨rfl, rfl, List.nodup_nil, rfl, (List.append_nil _).symm, [], (List.append_nil _).symm, ?_, ?_⟩
  · intro x hx
    cases hx
  · intro o ho
    cases ho

theorem unitSave_units_shape {units : List Unit} {u : Unit} {n : Nat} (hmem : u ∈ units)
    (hnd : (units.map Unit.id).Nodup) :
    (units.map (fun v => if v.id == u.id then { u with num_in_stock := n } else v)).map eraseStock =
      units.map eraseStock := by
  rw [List.map_map]
  apply List.map_congr_left
  intro v hv
  simp only [Function.comp]
  by_cases hvid : (v.id == u.id) = true
  · rw [if_pos hvid]
    have hvu : v = u := List.inj_on_of_nodup_map hnd hv hmem (beq_iff_eq.mp hvid)
    rw [hvu]
    rfl
  · rw [if_neg (by simpa using hvid)]

theorem unitSave_shape_of {dbx db0 : DB} {u : Unit} {n : Nat}
    (hshape : dbx.units.map eraseStock = db0.units.map eraseStock)
    (hmem : u ∈ dbx.units) (hnd : (dbx.units.map Unit.id).Nodup) :
    (unitSave dbx { u with num_in_stock := n }).units.map eraseStock = db0.units.map eraseStock := by
  rw [unitSave]
  dsimp only
  exact (unitSave_units_shape hmem hnd).trans hshape

theorem sellerOfUnit_from {dbS db0 : DB} {u : Unit} {prod : Product}
    (hshape : dbS.units.map eraseStock = db0.units.map eraseStock)
    (hprods : dbS.products = db0.products)
    (hnd : (db0.units.map Unit.id).Nodup)
    (hmem : u ∈ dbS.units)
    (hp : productGet dbS u.product_id = some prod) :
    sellerOfUnit db0 u.id = some prod.seller := by
  obtain ⟨u2, hu2mem, hfind, hpid⟩ := find?_id_of_mem hshape hnd hmem
  rw [sellerOfUnit, hfind]
  dsimp only
  have hp0 : productGet db0 u2.product_id = some prod := by
    rw [productGet] at hp
    rw [productGet, hpid, ← hprods]
    exact hp
  rw [hp0]
  rfl

theorem process_line_inv {db0 : DB} {st st1 : CheckoutState} {user : Nat} {nm ad ph : String}
    {line : CartLine}
    (hnd : (db0.units.map Unit.id).Nodup) (hInv : Inv db0 st)
    (h : process_line user nm ad ph st line = ProcessResult.ok st1) : Inv db0 st1 := by
  cases hu : unitGet st.db line.sku with
  | none =>
    rw [process_line_eq_exc_sku hu] at h
    cases h
  | some u =>
    cases hp : productGet st.db u.product_id with
    | none =>
      rw [process_line, hu] at h
      dsimp only at h
      rw [hp] at h
      cases h
    | some prod =>
      by_cases hq : line.quantity ≤ u.num_in_stock
      · rw [process_line_eq_pass hu hp hq] at h
        have humem : u ∈ st.db.units := List.mem_of_find?_eq_some hu
        have hstnd : (st.db.units.map Unit.id).Nodup := by
          rw [map_id_of_map_eraseStock hInv.shape]
          exact hnd
        have hseller : sellerOfUnit db0 u.id = some prod.seller :=
          sellerOfUnit_from hInv.shape hInv.prods hnd humem hp
        obtain ⟨new, hnew, hatt, hoho⟩ := hInv.ou_new
        cases hl : lookupOrder st.sellers st.orders prod.seller with
        | some o =>
          rw [gobs_found hl] at h
          cases h
          refine ⟨?_, hInv.prods, hInv.nodup, hInv.len, hInv.orders_eq,
            new ++ [{ order_id := o.id, unit_id := u.id, quantity := line.quantity }], ?_, ?_, ?_⟩
          · exact unitSave_shape_of hInv.shape humem hstnd
          · rw [unitSave]
            dsimp only
            rw [hnew, List.append_assoc]
          · intro x hx
            rcases List.mem_append.mp hx with hxo | hxn
            · exact hatt x hxo
            · rcases List.mem_singleton.mp hxn with rfl
              exact ⟨prod.seller, hseller, o, hl, rfl⟩
          · intro o2 ho2
            obtain ⟨x, hxmem, hxid⟩ := hoho o2 ho2
            exact ⟨x, List.mem_append_left _ hxmem, hxid⟩
        | none =>
          rw [gobs_new hl] at h
          cases h
          have hnotmem : prod.seller ∉ st.sellers := not_mem_of_lookupOrder_none hInv.len hl
          refine ⟨?_, hInv.prods, ?_, ?_, ?_,
            new ++ [{ order_id := st.db.next_order_id, unit_id := u.id, quantity := line.quantity }], ?_, ?_, ?_⟩
          · exact unitSave_shape_of hInv.shape humem hstnd
          · simp [List.nodup_append, hInv.nodup, hnotmem]
          · simp [hInv.len]
          · rw [unitSave]
            dsimp only
            rw [hInv.orders_eq, List.append_assoc]
          · rw [unitSave]
            dsimp only
            rw [hnew, List.append_assoc]
          · intro x hx
            rcases List.mem_append.mp hx with hxo | hxn
            · obtain ⟨spid, hs1, o2, hlook, hxid⟩ := hatt x hxo
              exact ⟨spid, hs1, o2, lookupOrder_append _ _ hlook, hxid⟩
            · rcases List.mem_singleton.mp hxn with rfl
              exact ⟨prod.seller, hseller, _, lookupOrder_append_self _ hInv.len hl, rfl⟩
          · intro o2 ho2
            rcases List.mem_append.mp ho2 with ho2o | ho2n
            · obtain ⟨x, hxmem, hxid⟩ := hoho o2 ho2o
              exact ⟨x, List.mem_append_left _ hxmem, hxid⟩
            · rcases List.mem_singleton.mp ho2n with rfl
              exact ⟨_, List.mem_append_right _ (List.mem_singleton_self _), rfl⟩
      · rw [process_line_eq_skip hu hp hq] at h
        cases h
        exact hInv

end Restshop

namespace Restshop

theorem process_units_inv {db0 : DB} {user : Nat} {nm ad ph : String}
    {lines : List CartLine} {st st1 : CheckoutState}
    (hnd : (db0.units.map Unit.id).Nodup) (hInv : Inv db0 st)
    (h : process_units user nm ad ph st lines = ProcessResult.ok st1) : Inv db0 st1 := by
  induction lines generalizing st with
  | nil =>
    rw [process_units] at h
    cases h
    exact hInv
  | cons line rest ih =>
    rw [process_units] at h
    cases hline : process_line user nm ad ph st line with
    | ok st2 =>
      rw [hline] at h
      exact ih (process_line_inv hnd hInv hline) h
    | exc e st2 =>
      rw [hline] at h
      cases h

theorem process_line_ok {db0 : DB} {st : CheckoutState} {user : Nat} {nm ad ph : String}
    {line : CartLine}
    (hInv : Inv db0 st)
    (hres : ∃ u, unitGet db0 line.sku = some u ∧ ∃ p, productGet db0 u.product_id = some p) :
    ∃ st2, process_line user nm ad ph st line = ProcessResult.ok st2 := by
  obtain ⟨u, hu, p, hp⟩ := hres
  have hsh := unitGet_shape hInv.shape line.sku
  rw [hu] at hsh
  cases hu1 : unitGet st.db line.sku with
  | none =>
    rw [hu1] at hsh
    cases hsh
  | some u1 =>
    rw [hu1] at hsh
    have he : eraseStock u1 = eraseStock u := by
      simpa using hsh
    have hpid : u1.product_id = u.product_id := by
      have h2 := congrArg Unit.product_id he
      simpa [eraseStock] using h2
    have hp1 : productGet st.db u1.product_id = some p := by
      rw [productGet, hInv.prods, hpid]
      rw [productGet] at hp
      exact hp
    by_cases hq : line.quantity ≤ u1.num_in_stock
    · exact ⟨_, process_line_eq_pass hu1 hp1 hq⟩
    · exact ⟨st, process_line_eq_skip hu1 hp1 hq⟩

theorem process_units_ok {db0 : DB} {user : Nat} {nm ad ph : String}
    {lines : List CartLine} {st : CheckoutState}
    (hnd : (db0.units.map Unit.id).Nodup) (hInv : Inv db0 st)
    (hres : ∀ line ∈ lines, ∃ u, unitGet db0 line.sku = some u ∧ ∃ p, productGet db0 u.product_id = some p) :
    ∃ st1, process_units user nm ad ph st lines = ProcessResult.ok st1 := by
  induction lines generalizing st with
  | nil => exact ⟨st, rfl⟩
  | cons line rest ih =>
    obtain ⟨st2, h2⟩ := process_line_ok hInv (hres line (List.mem_cons_self _ _))
    obtain ⟨st3, h3⟩ := ih (process_line_inv hnd hInv h2)
      (fun l hl => hres l (List.mem_cons_of_mem _ hl))
    refine ⟨st3, ?_⟩
    rw [process_units, h2]
    exact h3

end Restshop

namespace Restshop

/-- Claim C1: one checkout call creates at most one order per distinct
    seller — the seller list stays duplicate-free and the new order rows
    are exactly the parallel-list orders — and every order-unit row the
    call creates attaches to the order assigned to its unit's product's
    seller; concretely, the sellers 10, 20, 10 cart creates exactly two
    orders and its third line joins the first line's order. -/
theorem C1_seller_split :
    (∀ (db : DB) (user : Nat) (nm ad ph : String) (lines : List CartLine) (st : CheckoutState),
        (db.units.map Unit.id).Nodup →
        process_units user nm ad ph { db := db, sellers := [], orders := [] } lines =
          ProcessResult.ok st →
        st.sellers.Nodup ∧ st.orders.length = st.sellers.length ∧
          st.db.orders = db.orders ++ st.orders ∧
          ∀ ou ∈ st.db.order_units.drop db.order_units.length,
            ∃ spid, sellerOfUnit db ou.unit_id = some spid ∧
              ∃ o, lookupOrder st.sellers st.orders spid = some o ∧ ou.order_id = o.id) ∧
    (isCreated (OrderViewSet_create splitDB 7 splitPayload) = true ∧
      (resultOrders (OrderViewSet_create splitDB 7 splitPayload)).length = 2 ∧
      (resultOrderUnits (OrderViewSet_create splitDB 7 splitPayload)).map OrderUnit.order_id =
        [100, 101, 100]) := by
  constructor
  · intro db user nm ad ph lines st hnd hrun
    have hInv := process_units_inv hnd (Inv_init db) hrun
    obtain ⟨new, hnew, hatt, _⟩ := hInv.ou_new
    refine ⟨hInv.nodup, hInv.len.symm, hInv.orders_eq, ?_⟩
    intro ou hou
    rw [hnew, List.drop_left] at hou
    exact hatt ou hou
  · exact ⟨rfl, rfl, rfl⟩

/-- Witness for C1: the invariant instantiated on the concrete run of the
    sellers 10, 20, 10 scenario. -/
theorem C1_witness :
    process_units 7 "n" "a" "p" { db := splitDB, sellers := [], orders := [] } splitPayload.units =
        ProcessResult.ok splitFinalState ∧
      splitFinalState.sellers.Nodup ∧
      splitFinalState.orders.length = splitFinalState.sellers.length ∧
      splitFinalState.db.orders = splitDB.orders ++ splitFinalState.orders ∧
      ∀ ou ∈ splitFinalState.db.order_units.drop splitDB.order_units.length,
        ∃ spid, sellerOfUnit splitDB ou.unit_id = some spid ∧
          ∃ o, lookupOrder splitFinalState.sellers splitFinalState.orders spid = some o ∧
            ou.order_id = o.id :=
  ⟨rfl, C1_seller_split.1 splitDB 7 "n" "a" "p" splitPayload.units splitFinalState (by decide) rfl⟩

/-- Claim C2: a line with sufficient stock creates exactly one order-unit
    row with the line's quantity and saves the decremented stock at once;
    an insufficient line leaves the state untouched while the rest of the
    cart is still processed from it. -/
theorem C2_stock_decrement :
    ∀ (user : Nat) (nm ad ph : String) (st : CheckoutState) (line : CartLine)
      (rest : List CartLine) (u : Unit) (prod : Product),
      unitGet st.db line.sku = some u →
      productGet st.db u.product_id = some prod →
      ((line.quantity ≤ u.num_in_stock →
          ∃ st1, process_line user nm ad ph st line = ProcessResult.ok st1 ∧
            st1.db.order_units = st.db.order_units ++
              [{ order_id := (get_order_by_seller user nm ad ph st prod.seller).1.id,
                 unit_id := u.id, quantity := line.quantity }] ∧
            st1.db.units = st.db.units.map
              (fun v => if v.id == u.id then
                { u with num_in_stock := u.num_in_stock - line.quantity } else v) ∧
            process_units user nm ad ph st (line :: rest) =
              process_units user nm ad ph st1 rest) ∧
        (¬ line.quantity ≤ u.num_in_stock →
          process_line user nm ad ph st line = ProcessResult.ok st ∧
          process_units user nm ad ph st (line :: rest) =
            process_units user nm ad ph st rest)) := by
  intro user nm ad ph st line rest u prod hu hp
  constructor
  · intro hq
    refine ⟨_, process_line_eq_pass hu hp hq, ?_, ?_, ?_⟩
    · cases hl : lookupOrder st.sellers st.orders prod.seller with
      | some o =>
        rw [gobs_found hl, unitSave]
      | none =>
        rw [gobs_new hl, unitSave]
    · cases hl : lookupOrder st.sellers st.orders prod.seller with
      | some o =>
        rw [gobs_found hl, unitSave]
      | none =>
        rw [gobs_new hl, unitSave]
    · rw [process_units, process_line_eq_pass hu hp hq]
  · intro hq
    refine ⟨process_line_eq_skip hu hp hq, ?_⟩
    rw [process_units, process_line_eq_skip hu hp hq]

/-- Witness for C2: the first line of the scenario cart applied to the
    clean state, with the expected new order-unit row and stock update. -/
theorem C2_witness :
    ∃ st1, process_line 7 "n" "a" "p" st0split lineA = ProcessResult.ok st1 ∧
      st1.db.order_units = st0split.db.order_units ++
        [{ order_id := (get_order_by_seller 7 "n" "a" "p" st0split productA.seller).1.id,
           unit_id := unitA.id, quantity := lineA.quantity }] ∧
      st1.db.units = st0split.db.units.map
        (fun v => if v.id == unitA.id then
          { unitA with num_in_stock := unitA.num_in_stock - lineA.quantity } else v) ∧
      process_units 7 "n" "a" "p" st0split (lineA :: []) =
        process_units 7 "n" "a" "p" st1 [] :=
  (C2_stock_decrement 7 "n" "a" "p" st0split lineA [] unitA productA rfl rfl).1 (by decide)

/-- Counterexample to claim C3: a structurally valid checkout whose only
    line exceeds the stock returns success with the store untouched — no
    order row is created for the seller, because the order lookup/creation
    happens inside the sufficient-stock branch, not before the comparison. -/
theorem C3_counterexample :
    serializer_is_valid overAskPayload = true ∧
    OrderViewSet_create emptyStockDB 7 overAskPayload = CreateResult.created emptyStockDB ∧
    emptyStockDB.orders = [] :=
  ⟨rfl, rfl, rfl⟩

/-- Claim C3 as amended: the seller's order is looked up or created only
    inside the sufficient-stock branch, so every order row a checkout call
    creates has at least one order-unit row created by the same call. -/
theorem C3_no_empty_orders :
    ∀ (db : DB) (user : Nat) (nm ad ph : String) (lines : List CartLine) (st : CheckoutState),
      (db.units.map Unit.id).Nodup →
      process_units user nm ad ph { db := db, sellers := [], orders := [] } lines =
        ProcessResult.ok st →
      ∀ o ∈ st.db.orders.drop db.orders.length,
        ∃ ou ∈ st.db.order_units.drop db.order_units.length, ou.order_id = o.id := by
  intro db user nm ad ph lines st hnd hrun o ho
  have hInv := process_units_inv hnd (Inv_init db) hrun
  obtain ⟨new, hnew, _, hoho⟩ := hInv.ou_new
  rw [hInv.orders_eq, List.drop_left] at ho
  obtain ⟨x, hx, hxid⟩ := hoho o ho
  rw [hnew, List.drop_left]
  exact ⟨x, hx, hxid⟩

/-- Witness for C3 as amended: the first order of the scenario run carries
    an order-unit row. -/
theorem C3_witness :
    ∃ ou ∈ splitFinalState.db.order_units.drop splitDB.order_units.length, ou.order_id = 100 :=
  C3_no_empty_orders splitDB 7 "n" "a" "p" splitPayload.units splitFinalState (by decide) rfl
    { id := 100, user := 7, name := "n", address := "a", phone := "p" } (by decide)

/-- Counterexample to claim C8: a structurally valid payload whose sku
    matches no unit passes validation yet the call aborts with an uncaught
    DoesNotExist instead of returning the 201 success. -/
theorem C8_counterexample :
    serializer_is_valid unknownSkuPayload = true ∧
    OrderViewSet_create emptyStockDB 7 unknownSkuPayload =
      CreateResult.exception "Unit matching query does not exist" emptyStockDB :=
  ⟨rfl, rfl⟩

/-- Claim C8 as amended: the call returns the 400 with the field errors and
    an untouched store exactly when validation fails; when validation
    passes and every line's sku resolves to an existing unit (with its
    product present), the call returns the 201 success regardless of how
    many lines were skipped for insufficient stock. -/
theorem C8_validation_gate :
    (∀ (db : DB) (user : Nat) (payload : CheckoutPayload),
        serializer_is_valid payload = false →
        OrderViewSet_create db user payload =
          CreateResult.badRequest serializer_error_messages db) ∧
    (∀ (db : DB) (user : Nat) (payload : CheckoutPayload) (errs : List String) (db2 : DB),
        OrderViewSet_create db user payload = CreateResult.badRequest errs db2 →
        serializer_is_valid payload = false ∧ errs = serializer_error_messages ∧ db2 = db) ∧
    (∀ (db : DB) (user : Nat) (payload : CheckoutPayload),
        (db.units.map Unit.id).Nodup →
        serializer_is_valid payload = true →
        (∀ line ∈ payload.units, ∃ u, unitGet db line.sku = some u ∧
          ∃ p, productGet db u.product_id = some p) →
        ∃ db2, OrderViewSet_create db user payload = CreateResult.created db2) := by
  refine ⟨?_, ?_, ?_⟩
  · intro db user payload hval
    rw [OrderViewSet_create, if_neg (by simp [hval])]
  · intro db user payload errs db2 h
    rw [OrderViewSet_create] at h
    by_cases hval : serializer_is_valid payload = true
    · rw [if_pos hval] at h
      cases hproc : process_units user payload.name payload.address payload.phone
          { db := db, sellers := [], orders := [] } payload.units with
      | ok st =>
        rw [hproc] at h
        cases h
      | exc e st =>
        rw [hproc] at h
        cases h
    · rw [if_neg hval] at h
      cases h
      exact ⟨by simpa using hval, rfl, rfl⟩
  · intro db user payload hnd hval hres
    obtain ⟨st1, h1⟩ := process_units_ok hnd (Inv_init db) hres
    refine ⟨st1.db, ?_⟩
    rw [OrderViewSet_create, if_pos hval, h1]

/-- Witness for C8 as amended: the scenario payload validates and its
    checkout returns the 201 success. -/
theorem C8_witness :
    serializer_is_valid splitPayload = true ∧
    ∃ db2, OrderViewSet_create splitDB 7 splitPayload = CreateResult.created db2 := by
  refine ⟨rfl, C8_validation_gate.2.2 splitDB 7 splitPayload (by decide) rfl ?_⟩
  intro line hline
  simp only [splitPayload, List.mem_cons, List.not_mem_nil, or_false] at hline
  rcases hline with rfl | rfl | rfl
  · exact ⟨_, rfl, _, rfl⟩
  · exact ⟨_, rfl, _, rfl⟩
  · exact ⟨_, rfl, _, rfl⟩

/-- Claim C9: the order listing returns exactly the requesting buyer's
    orders, and retrieving an existing order owned by a different buyer
    yields the 401 with no order data. -/
theorem C9_order_visibility :
    (∀ (db : DB) (user : Nat) (o : Order),
        o ∈ OrderViewSet_list db user ↔ o ∈ db.orders ∧ o.user = user) ∧
    (∀ (db : DB) (user pk : Nat) (o : Order),
        db.orders.find? (fun x => x.id == pk) = some o → o.user ≠ user →
        OrderViewSet_retrieve db user pk = RetrieveResult.unauthorized) := by
  constructor
  · intro db user o
    simp [OrderViewSet_list, List.mem_filter, beq_iff_eq]
  · intro db user pk o hfind hne
    rw [OrderViewSet_retrieve, hfind]
    dsimp only
    rw [if_pos (Ne.symm hne)]

/-- Witness for C9: buyer 4 retrieving buyer 3's order receives the 401. -/
theorem C9_witness :
    OrderViewSet_retrieve ordersDB 4 1 = RetrieveResult.unauthorized :=
  C9_order_visibility.2 ordersDB 4 1
    { id := 1, user := 3, name := "n", address := "a", phone := "p" } rfl (by decide)

end Restshop
